import Mathlib

/-!
Verification of the file_manager_tool repository against its specification.

The repository ships two files: `run_file_manager.pyw` (the launcher) and a
README.  The launcher is embedded directly from its source.  The application
core (`file_manager.py`: directory lister, filter engine, rename transformer,
bulk operation executor) is not present in the source tree, so those
components are modelled from the specification, as marked on each definition.

Strings are embedded as `List Char`; the path separator is embedded as '/'.
-/

namespace FileManager

/-! ## Launcher (embedded from src/run_file_manager.pyw) -/

/-- Outcome of the `subprocess.run([sys.executable, file_manager_path])` call
in the launcher's module body: either the spawn itself raised an exception
(for example the interpreter could not be executed), or the child process ran
and exited with some exit code. -/
inductive SpawnOutcome where
  | execFailed : SpawnOutcome
  | exited : Nat → SpawnOutcome
deriving DecidableEq

/-- Exit code of the launcher process as a function of the spawn outcome.
From src/run_file_manager.pyw lines 14-15: `subprocess.run` is called without
`check=True` and its return value is discarded, so the module body completes
normally (exit code 0) for every child exit code; an exception raised by the
spawn itself is unhandled and terminates the interpreter with exit code 1. -/
def launcherExitCode : SpawnOutcome → Nat
  | SpawnOutcome.execFailed => 1
  | SpawnOutcome.exited _ => 0

/-- POSIX test for an absolute path, as used by `os.path`. -/
def isAbs : List Char → Bool
  | '/' :: _ => true
  | _ => false

/-- `os.path.join` for two components (POSIX semantics): an absolute second
component discards the first; otherwise the parts are joined with a single
separator unless the first already ends in one or is empty. -/
def pathJoin (a b : List Char) : List Char :=
  if isAbs b then b
  else if a = [] then b
  else if a.getLast? = some '/' then a ++ b
  else a ++ '/' :: b

/-- `os.path.abspath`: a relative path is resolved against the current working
directory, an absolute path is kept.  (The `normpath` normalisation step is a
function of the path alone and is omitted; it plays no role in the
cwd-dependence questions below.) -/
def abspath (cwd p : List Char) : List Char :=
  if isAbs p then p else pathJoin cwd p

/-- `os.path.dirname` (POSIX): everything up to the last separator, with
trailing separators stripped unless the result consists only of separators. -/
def dirname (p : List Char) : List Char :=
  let head := (p.reverse.dropWhile (fun c => c ≠ '/')).reverse
  if head.all (fun c => c = '/') then head
  else (head.reverse.dropWhile (fun c => c = '/')).reverse

/-- From src/run_file_manager.pyw lines 10-12:
`script_dir = os.path.dirname(os.path.abspath(__file__))` followed by
`file_manager_path = os.path.join(script_dir, 'file_manager.py')`.
`cwd` is the caller's current working directory, `scriptFile` the value of
`__file__` for the launcher script. -/
def fileManagerPath (cwd scriptFile : List Char) : List Char :=
  pathJoin (dirname (abspath cwd scriptFile)) ("file_manager.py".toList)

/-- From src/run_file_manager.pyw line 15: the argument vector of the child
command, `[sys.executable, file_manager_path]`.  The launcher's own argument
vector `callerArgs` (Python's `sys.argv`) is never read by the script, which
the embedding records by taking it as an unused parameter. -/
def launcherCommand (_callerArgs : List (List Char)) (pyExe cwd scriptFile : List Char) :
    List (List Char) :=
  [pyExe, fileManagerPath cwd scriptFile]

/-! ## Data model (spec section 3) -/

/-- Modelled from the spec: a FileEntry snapshot
(name, full_path, size, modified_time, is_directory). -/
structure FileEntry where
  name : List Char
  full_path : List Char
  size : Nat
  modified_time : Nat
  is_directory : Bool
deriving DecidableEq

/-- Modelled from the spec: a FilterSpec value object. -/
structure FilterSpec where
  pattern : List Char
  use_regex : Bool
  case_sensitive : Bool
  include_subdirs : Bool
deriving DecidableEq

/-- Modelled from the spec: a RenameSpec value object. -/
structure RenameSpec where
  find : List Char
  replace : List Char
  use_regex : Bool
deriving DecidableEq

/-- Modelled from the spec: the error taxonomy of spec section 7, plus the
file-not-found error kind used by bulk delete in spec section 4.4. -/
inductive FMError where
  | pathNotFound : FMError
  | permissionDenied : FMError
  | invalidPattern : FMError
  | collision : FMError
  | destinationExists : FMError
  | diskFull : FMError
  | fileNotFound : FMError
deriving DecidableEq

/-! ## String helpers -/

/-- Does `p` occur at the start of `l`? -/
def listPrefixOf : List Char → List Char → Bool
  | [], _ => true
  | _ :: _, [] => false
  | a :: p, b :: l => a == b && listPrefixOf p l

/-- Does `p` occur as a contiguous substring of `l`?  (The empty pattern
occurs in every string.) -/
def listContainsSub (p : List Char) : List Char → Bool
  | [] => listPrefixOf p []
  | c :: l => listPrefixOf p (c :: l) || listContainsSub p l

/-- Case folding as performed by Python's `str.lower()`: the identity when the
comparison is case-sensitive. -/
def caseFold (caseSensitive : Bool) (s : List Char) : List Char :=
  if caseSensitive then s else s.map Char.toLower

/-! ## Regular expressions

Modelled from the spec: patterns are "compiled as a regular expression" and
matched with search-anywhere semantics.  The model supports the core
regular-expression language (literal characters, escaped characters, `.`,
alternation, grouping, and the postfix repetitions `*`, `+`, `?`); a pattern
that fails to parse fails to compile. -/

inductive Regex where
  | emp : Regex
  | eps : Regex
  | chr : Char → Regex
  | dot : Regex
  | alt : Regex → Regex → Regex
  | cat : Regex → Regex → Regex
  | star : Regex → Regex
deriving DecidableEq

/-- Does the regular expression accept the empty string? -/
def nullable : Regex → Bool
  | Regex.emp => false
  | Regex.eps => true
  | Regex.chr _ => false
  | Regex.dot => false
  | Regex.alt a b => nullable a || nullable b
  | Regex.cat a b => nullable a && nullable b
  | Regex.star _ => true

/-- Brzozowski derivative by one character. -/
def deriv (c : Char) : Regex → Regex
  | Regex.emp => Regex.emp
  | Regex.eps => Regex.emp
  | Regex.chr d => if c = d then Regex.eps else Regex.emp
  | Regex.dot => Regex.eps
  | Regex.alt a b => Regex.alt (deriv c a) (deriv c b)
  | Regex.cat a b =>
      if nullable a then Regex.alt (Regex.cat (deriv c a) b) (deriv c b)
      else Regex.cat (deriv c a) b
  | Regex.star a => Regex.cat (deriv c a) (Regex.star a)

/-- Full-string match via derivatives. -/
def rmatch (r : Regex) : List Char → Bool
  | [] => nullable r
  | c :: s => rmatch (deriv c r) s

/-- Does some (possibly empty) leading segment of `s` match `r`? -/
def matchesSomeStart : Regex → List Char → Bool
  | r, [] => nullable r
  | r, c :: s => nullable r || matchesSomeStart (deriv c r) s

/-- `re.search` semantics: does `r` match some contiguous segment of `s`
starting anywhere (not anchored)? -/
def rsearch : Regex → List Char → Bool
  | r, [] => matchesSomeStart r []
  | r, c :: s => matchesSomeStart r (c :: s) || rsearch r s

/-! Recursive-descent parser for the pattern syntax.  The fuel argument bounds
the recursion depth; `compileRegex` supplies enough fuel for any input. -/

/-- Consume postfix repetition operators after an atom. -/
def applyPostfixOps : Regex → List Char → Regex × List Char
  | r, '*' :: t => applyPostfixOps (Regex.star r) t
  | r, '+' :: t => applyPostfixOps (Regex.cat r (Regex.star r)) t
  | r, '?' :: t => applyPostfixOps (Regex.alt r Regex.eps) t
  | r, t => (r, t)

mutual

/-- Parse an alternation (branches separated by `|`). -/
def parseAlt : Nat → List Char → Option (Regex × List Char)
  | 0, _ => none
  | Nat.succ n, s =>
    match parseCat n s with
    | none => none
    | some (r, rest) =>
      match rest with
      | '|' :: rest₂ =>
        match parseAlt n rest₂ with
        | none => none
        | some (r₂, rest₃) => some (Regex.alt r r₂, rest₃)
      | _ => some (r, rest)

/-- Parse a concatenation of repeated atoms, stopping at `|`, `)` or the end. -/
def parseCat : Nat → List Char → Option (Regex × List Char)
  | 0, _ => none
  | Nat.succ n, s =>
    match s with
    | [] => some (Regex.eps, [])
    | ')' :: _ => some (Regex.eps, s)
    | '|' :: _ => some (Regex.eps, s)
    | _ =>
      match parseRep n s with
      | none => none
      | some (r, rest) =>
        match parseCat n rest with
        | none => none
        | some (r₂, rest₂) => some (Regex.cat r r₂, rest₂)

/-- Parse one atom with its postfix repetition operators. -/
def parseRep : Nat → List Char → Option (Regex × List Char)
  | 0, _ => none
  | Nat.succ n, s =>
    match parseAtom n s with
    | none => none
    | some (r, rest) => some (applyPostfixOps r rest)

/-- Parse one atom: a group, `.`, an escaped character, or a literal
character.  A bare repetition operator, a stray `)` or `|`, an unclosed group
and a trailing escape are parse errors. -/
def parseAtom : Nat → List Char → Option (Regex × List Char)
  | 0, _ => none
  | Nat.succ n, s =>
    match s with
    | [] => none
    | '(' :: t =>
      match parseAlt n t with
      | some (r, ')' :: t₂) => some (r, t₂)
      | _ => none
    | ')' :: _ => none
    | '|' :: _ => none
    | '*' :: _ => none
    | '+' :: _ => none
    | '?' :: _ => none
    | '.' :: t => some (Regex.dot, t)
    | '\\' :: c :: t => some (Regex.chr c, t)
    | '\\' :: [] => none
    | c :: t => some (Regex.chr c, t)

end

/-- Modelled from the spec: regex compilation; `none` models a pattern the
regex compiler rejects (spec: "Fails with InvalidPatternError if the regex
fails to compile"). -/
def compileRegex (s : List Char) : Option Regex :=
  match parseAlt (2 * s.length + 4) s with
  | some (r, []) => some r
  | _ => none

/-! ## Filter Engine (spec section 4.2) -/

/-- Modelled from the spec: the Filter Engine.  With `use_regex` false the
match is substring containment, case-folded unless `case_sensitive`; with
`use_regex` true the pattern is compiled and matched with search-anywhere
semantics, and a pattern that fails to compile yields `InvalidPatternError`. -/
def filterEngine (spec : FilterSpec) (entries : List FileEntry) :
    Except FMError (List FileEntry) :=
  if spec.use_regex then
    match compileRegex (caseFold spec.case_sensitive spec.pattern) with
    | none => Except.error FMError.invalidPattern
    | some r =>
        Except.ok (entries.filter (fun e => rsearch r (caseFold spec.case_sensitive e.name)))
  else
    Except.ok (entries.filter (fun e =>
      listContainsSub (caseFold spec.case_sensitive spec.pattern)
        (caseFold spec.case_sensitive e.name)))

/-- Modelled from the spec: the state the presentation layer keeps — the
current listing and the currently displayed filtered subset. -/
structure DisplayState where
  allEntries : List FileEntry
  filtered : List FileEntry
deriving DecidableEq

/-- Modelled from the spec: the caller of the Filter Engine surfaces an
`InvalidPatternError` and falls back to the previous valid filter, leaving the
displayed filtered set unchanged. -/
def applyFilter (st : DisplayState) (spec : FilterSpec) :
    DisplayState × Option FMError :=
  match filterEngine spec st.allEntries with
  | Except.error e => (st, some e)
  | Except.ok fs => ({ st with filtered := fs }, none)

/-! ## Rename Transformer (spec section 4.3) -/

/-- Python `str.replace` with an empty needle: the replacement is inserted at
every gap, including both ends. -/
def interleaveRepl (repl : List Char) : List Char → List Char
  | [] => repl
  | c :: s => repl ++ c :: interleaveRepl repl s

/-- Left-to-right replace-all scan for a literal needle.  At each position the
needle is either consumed and replaced or the character is kept.  The fuel
argument bounds the number of steps; every step consumes at least one
character, so fuel equal to the string length always suffices.  (An empty
needle is handled by `replaceAll`; here it performs no replacement.) -/
def replaceScanF (find repl : List Char) : Nat → List Char → List Char
  | _, [] => []
  | 0, s => s
  | Nat.succ n, c :: s =>
    match find with
    | [] => c :: s
    | f :: fs =>
      if listPrefixOf (f :: fs) (c :: s) then
        repl ++ replaceScanF (f :: fs) repl n (s.drop fs.length)
      else
        c :: replaceScanF (f :: fs) repl n s

/-- Replace-all scan with sufficient fuel. -/
def replaceScan (find repl s : List Char) : List Char :=
  replaceScanF find repl s.length s

/-- Modelled from the spec: literal substring replace-all
(Python `str.replace` semantics). -/
def replaceAll (find repl s : List Char) : List Char :=
  match find with
  | [] => interleaveRepl repl s
  | _ :: _ => replaceScan find repl s

/-- Position (character count) of the end of the longest leading match of `r`,
accumulated while walking the string with derivatives; `i` is the number of
characters consumed so far and `best` the best position seen. -/
def lastNullablePos : Regex → List Char → Nat → Option Nat → Option Nat
  | r, [], i, best => if nullable r then some i else best
  | r, c :: s, i, best =>
      lastNullablePos (deriv c r) s (i + 1) (if nullable r then some i else best)

/-- Length of the longest leading segment of `s` matched by `r`, if any. -/
def longestMatchLen (r : Regex) (s : List Char) : Option Nat :=
  lastNullablePos r s 0 none

/-- Substitution scan: at each position, replace the longest match (an empty
match consumes no character but still advances).  The fuel argument bounds the
number of steps; every step consumes at least one character, so fuel equal to
the string length always suffices. -/
def regexSubF (r : Regex) (repl : List Char) : Nat → List Char → List Char
  | _, [] => if nullable r then repl else []
  | 0, s => s
  | Nat.succ n, c :: s =>
    match longestMatchLen r (c :: s) with
    | none => c :: regexSubF r repl n s
    | some 0 => repl ++ c :: regexSubF r repl n s
    | some (Nat.succ k) => repl ++ regexSubF r repl n ((c :: s).drop (k + 1))

/-- Modelled from the spec: regex substitution with replace-all semantics (all
non-overlapping matches, scanning left to right; the model resolves ambiguity
by taking the longest match at each position). -/
def regexSub (r : Regex) (repl : List Char) (s : List Char) : List Char :=
  regexSubF r repl s.length s

/-- Modelled from the spec: the Rename Transformer's mapping on one name:
literal replace-all when `use_regex` is false, regex substitution otherwise;
compilation failure yields `InvalidPatternError`. -/
def applyRename (spec : RenameSpec) (nm : List Char) : Except FMError (List Char) :=
  if spec.use_regex then
    match compileRegex spec.find with
    | none => Except.error FMError.invalidPattern
    | some r => Except.ok (regexSub r spec.replace nm)
  else
    Except.ok (replaceAll spec.find spec.replace nm)

/-- One line of the rename preview: (old_name, new_name, conflict). -/
structure RenamePreview where
  old_name : List Char
  new_name : List Char
  conflict : Bool
deriving DecidableEq

/-- Modelled from the spec: the Rename Transformer's preview.  An entry is
flagged as a conflict when two or more input entries map to the same new name,
or when the new name collides with a pre-existing file that is not itself
being renamed.  `existing` is the list of names currently in the directory. -/
def renamePreviews (spec : RenameSpec) (entries : List FileEntry)
    (existing : List (List Char)) : Except FMError (List RenamePreview) := do
  let pairs ← entries.mapM (fun e => do
    let n ← applyRename spec e.name
    pure (e.name, n))
  let olds := pairs.map Prod.fst
  let news := pairs.map Prod.snd
  pure (pairs.map (fun p =>
    { old_name := p.1
      new_name := p.2
      conflict := decide (2 ≤ news.count p.2)
        || (existing.contains p.2 && !(olds.contains p.2)) }))

/-! ## Bulk Operation Executor (spec section 4.4) -/

/-- Per-item result of one bulk operation step. -/
inductive ItemOutcome where
  | ok : ItemOutcome
  | failed : FMError → ItemOutcome
  | skipped : FMError → ItemOutcome
deriving DecidableEq

/-- Modelled from the spec: the summary report of a batch — counts of
succeeded, failed and skipped items, plus (entry name, error kind) for each
failure or skip. -/
structure Report where
  succeeded : Nat
  failed : Nat
  skipped : Nat
  errors : List (List Char × FMError)
deriving DecidableEq

/-- Modelled from the spec: the Bulk Operation Executor.  It performs the
operation per entry, independently, continuing past individual failures, and
always returns a summary report; no per-item outcome aborts the batch. -/
def runBatch {σ α : Type} (step : σ → α → σ × ItemOutcome)
    (nameOf : α → List Char) : σ → List α → σ × Report
  | st, [] => (st, ⟨0, 0, 0, []⟩)
  | st, a :: as =>
    let first := step st a
    let rest := runBatch step nameOf first.1 as
    match first.2 with
    | ItemOutcome.ok =>
        (rest.1, { rest.2 with succeeded := rest.2.succeeded + 1 })
    | ItemOutcome.failed e =>
        (rest.1, { rest.2 with failed := rest.2.failed + 1,
                               errors := (nameOf a, e) :: rest.2.errors })
    | ItemOutcome.skipped e =>
        (rest.1, { rest.2 with skipped := rest.2.skipped + 1,
                               errors := (nameOf a, e) :: rest.2.errors })

/-- A file on disk: a name and its content bytes (embedded as characters). -/
structure FsFile where
  name : List Char
  content : List Char
deriving DecidableEq

/-- Modelled from the spec: the filesystem state a bulk operation touches —
the source directory, the copy destination directory, and the free space left
on the destination device (for `DiskFullError`). -/
structure FsState where
  src : List FsFile
  dest : List FsFile
  free : Nat
deriving DecidableEq

/-- Modelled from the spec: one bulk-delete step.  A file that is already gone
is reported as a per-item not-found failure (the strict choice of spec
section 9); deleting an existing file removes it from the source directory. -/
def deleteStep (st : FsState) (e : FileEntry) : FsState × ItemOutcome :=
  if st.src.any (fun f => f.name == e.name) then
    ({ st with src := st.src.filter (fun f => !(f.name == e.name)) }, ItemOutcome.ok)
  else
    (st, ItemOutcome.failed FMError.fileNotFound)

/-- Modelled from the spec: one bulk-rename step.  A preview line flagged as a
conflict is skipped with `CollisionError` and nothing is renamed; otherwise
the file is renamed in place (the underlying rename is atomic). -/
def renameStep (st : FsState) (p : RenamePreview) : FsState × ItemOutcome :=
  if p.conflict then
    (st, ItemOutcome.skipped FMError.collision)
  else
    ({ st with src := st.src.map (fun f =>
        if f.name = p.old_name then { f with name := p.new_name } else f) },
     ItemOutcome.ok)

/-- Modelled from the spec: one bulk-copy step.  A missing source is a
not-found failure; a same-named file in the destination with overwrite
disabled is a `DestinationExistsError` failure that leaves both directories
untouched; insufficient space is a `DiskFullError` failure whose partial
output is removed (destination unchanged); otherwise the full content is
copied. -/
def copyStep (overwrite : Bool) (st : FsState) (e : FileEntry) :
    FsState × ItemOutcome :=
  match st.src.find? (fun f => f.name == e.name) with
  | none => (st, ItemOutcome.failed FMError.fileNotFound)
  | some f =>
    if st.dest.any (fun g => g.name == e.name) && !overwrite then
      (st, ItemOutcome.failed FMError.destinationExists)
    else if st.free < f.content.length then
      (st, ItemOutcome.failed FMError.diskFull)
    else
      ({ st with
          dest := st.dest.filter (fun g => !(g.name == e.name)) ++ [⟨e.name, f.content⟩],
          free := st.free - f.content.length },
       ItemOutcome.ok)

/-- Bulk delete over a batch of entries. -/
def runDelete (st : FsState) (es : List FileEntry) : FsState × Report :=
  runBatch deleteStep (fun e => e.name) st es

/-- Bulk rename over a batch of preview lines. -/
def runRename (st : FsState) (ps : List RenamePreview) : FsState × Report :=
  runBatch renameStep (fun p => p.old_name) st ps

/-- Bulk copy over a batch of entries. -/
def runCopy (overwrite : Bool) (st : FsState) (es : List FileEntry) : FsState × Report :=
  runBatch (copyStep overwrite) (fun e => e.name) st es

/-! ## Directory Lister (spec section 4.1) -/

/-- A filesystem tree: the children of the root being listed. -/
inductive FsTree where
  | file : List Char → Nat → Nat → FsTree
  | dir : List Char → List FsTree → FsTree

mutual

/-- Modelled from the spec: the entries contributed by one tree node located
directly under the directory `pre`.  A file becomes one entry whose full path
joins `pre` and the file name; a subdirectory contributes its descendants
only when `includeSub` is true. -/
def listTree (pre : List Char) (includeSub : Bool) : FsTree → List FileEntry
  | FsTree.file nm sz mt => [⟨nm, pre ++ '/' :: nm, sz, mt, false⟩]
  | FsTree.dir nm cs =>
      if includeSub then listTrees (pre ++ '/' :: nm) includeSub cs else []

/-- Entries contributed by a list of sibling tree nodes. -/
def listTrees (pre : List Char) (includeSub : Bool) : List FsTree → List FileEntry
  | [] => []
  | t :: ts => listTree pre includeSub t ++ listTrees pre includeSub ts

end

/-- Modelled from the spec: the Directory Lister, given the root path and the
root's children. -/
def listDirectory (rootPath : List Char) (includeSub : Bool)
    (children : List FsTree) : List FileEntry :=
  listTrees rootPath includeSub children

/-- Every top-level file name in the tree list is free of path separators. -/
def topFileNameOk : FsTree → Bool
  | FsTree.file nm _ _ => nm.all (fun c => !(c == '/'))
  | FsTree.dir _ _ => true

/-! ## Concrete fixtures used by witnesses and counterexamples -/

/-- A concrete listing entry. -/
def wEntryA : FileEntry := ⟨"a.txt".toList, "/r/a.txt".toList, 0, 0, false⟩

/-- A second concrete listing entry. -/
def wEntryB : FileEntry := ⟨"b.txt".toList, "/r/b.txt".toList, 0, 0, false⟩

/-- A concrete non-regex filter. -/
def wFilterSpec : FilterSpec := ⟨['a'], false, false, false⟩

/-- A concrete regex filter whose pattern fails to compile. -/
def wBadRegexSpec : FilterSpec := ⟨['('], true, true, false⟩

/-- A concrete display state with a previously applied filter. -/
def wDisplay : DisplayState := ⟨[wEntryA, wEntryB], [wEntryA]⟩

/-- The rename spec of the collision scenario of spec section 8. -/
def c4Spec : RenameSpec := ⟨"a|b".toList, "x".toList, true⟩

/-- The entries of the collision scenario. -/
def c4Entries : List FileEntry := [wEntryA, wEntryB]

/-- The names present in the directory of the collision scenario. -/
def c4Existing : List (List Char) := ["a.txt".toList, "b.txt".toList]

/-- The expected preview of the collision scenario. -/
def c4Previews : List RenamePreview :=
  [⟨"a.txt".toList, "x.txt".toList, true⟩, ⟨"b.txt".toList, "x.txt".toList, true⟩]

/-- The filesystem state of the collision scenario. -/
def c4State : FsState := ⟨[⟨"a.txt".toList, []⟩, ⟨"b.txt".toList, []⟩], [], 1000⟩

/-- A state whose destination already holds a file named like the source. -/
def c6State : FsState :=
  ⟨[⟨"a.txt".toList, "hello".toList⟩], [⟨"a.txt".toList, "old".toList⟩], 100⟩

/-- A literal rename spec with find equal to replace. -/
def c7Spec : RenameSpec := ⟨"na".toList, "na".toList, false⟩

/-- Children of a listing root: one file and one subdirectory with a file. -/
def c8Trees : List FsTree :=
  [FsTree.file ("a.txt".toList) 1 2, FsTree.dir ("d".toList) [FsTree.file ("x".toList) 0 0]]

/-- The entry the non-recursive listing of `c8Trees` produces. -/
def c8Entry : FileEntry := ⟨"a.txt".toList, "/r/a.txt".toList, 1, 2, false⟩

end FileManager

namespace FileManager

/-! ## Theorems for the launcher claims -/

/-- C1, counterexample: the claim states that an unhandled startup failure of
the invoked program (for example a missing GUI toolkit, which makes
`file_manager.py` exit with code 1) yields a non-zero launcher exit code; but
the launcher discards the child's return code and exits 0. -/
theorem launcher_exit_ignores_child_failure :
    launcherExitCode (SpawnOutcome.exited 1) = 0 := rfl

/-- C1, amended: the launcher exits 0 on normal close of the child, but also
exits 0 for every child exit code (the return code of `subprocess.run` is
discarded); its exit code is non-zero exactly when spawning the child itself
raises an unhandled exception in the launcher. -/
theorem launcher_exit_code_spec :
    launcherExitCode (SpawnOutcome.exited 0) = 0
    ∧ (∀ c : Nat, launcherExitCode (SpawnOutcome.exited c) = 0)
    ∧ launcherExitCode SpawnOutcome.execFailed ≠ 0 := by
  refine ⟨rfl, fun c => rfl, ?_⟩
  simp [launcherExitCode]

/-- C9: the path of the program the launcher runs is computed from the
launcher script's own absolute directory joined with `file_manager.py`,
independently of the caller's current working directory: for an absolute
`__file__`, any two working directories give the same child path. -/
theorem fileManagerPath_cwd_independent (scriptFile : List Char)
    (h : isAbs scriptFile = true) :
    ∀ cwd₁ cwd₂ : List Char,
      fileManagerPath cwd₁ scriptFile = fileManagerPath cwd₂ scriptFile := by
  intro cwd₁ cwd₂
  simp [fileManagerPath, abspath, h]

/-- Witness for C9 at a concrete absolute script path and two distinct
working directories. -/
theorem fileManagerPath_cwd_independent_witness :
    isAbs ("/opt/tool/run_file_manager.pyw".toList) = true
    ∧ fileManagerPath ("/home/user".toList) ("/opt/tool/run_file_manager.pyw".toList)
        = fileManagerPath ("/tmp".toList) ("/opt/tool/run_file_manager.pyw".toList) :=
  ⟨by decide,
   fileManagerPath_cwd_independent ("/opt/tool/run_file_manager.pyw".toList) (by decide)
     ("/home/user".toList) ("/tmp".toList)⟩

/-- C10: the child command is independent of the launcher's own command-line
arguments: for any two argument vectors, the launcher invokes the interpreter
with the script path only, forwarding nothing. -/
theorem launcherCommand_ignores_args
    (pyExe cwd scriptFile : List Char) (args₁ args₂ : List (List Char)) :
    launcherCommand args₁ pyExe cwd scriptFile = launcherCommand args₂ pyExe cwd scriptFile
    ∧ launcherCommand args₁ pyExe cwd scriptFile = [pyExe, fileManagerPath cwd scriptFile] :=
  ⟨rfl, rfl⟩

/-! ## Helper lemmas -/

/-- The empty pattern occurs in every string. -/
theorem listContainsSub_nil (s : List Char) : listContainsSub [] s = true := by
  cases s <;> simp [listContainsSub, listPrefixOf]

/-- Case folding the empty string gives the empty string. -/
theorem caseFold_nil (cs : Bool) : caseFold cs [] = [] := by
  cases cs <;> rfl

/-- Splitting off a matched leading occurrence reassembles the string. -/
theorem listPrefixOf_append_drop :
    ∀ (p l : List Char), listPrefixOf p l = true → p ++ l.drop p.length = l := by
  intro p
  induction p with
  | nil => intro l _; simp
  | cons a p ih =>
    intro l hp
    cases l with
    | nil => simp [listPrefixOf] at hp
    | cons b l =>
      rw [listPrefixOf, Bool.and_eq_true, beq_iff_eq] at hp
      obtain ⟨rfl, hp⟩ := hp
      simpa using ih l hp

/-- Interleaving an empty replacement is the identity. -/
theorem interleaveRepl_nil (s : List Char) : interleaveRepl [] s = s := by
  induction s with
  | nil => rfl
  | cons c s ih => simp [interleaveRepl, ih]

/-- Replacing every occurrence of a needle by the needle itself changes
nothing (fuelled scan version). -/
theorem replaceScanF_self (p : List Char) :
    ∀ (n : Nat) (s : List Char), s.length ≤ n → replaceScanF p p n s = s := by
  intro n
  induction n with
  | zero => intro s _; cases s <;> rfl
  | succ n ih =>
    intro s hs
    cases s with
    | nil => rfl
    | cons c t =>
      have ht : t.length ≤ n := by
        simp [List.length_cons] at hs
        omega
      cases hp : p with
      | nil => simp [replaceScanF]
      | cons f fs =>
        by_cases hpre : listPrefixOf (f :: fs) (c :: t) = true
        · have hdrop : (f :: fs) ++ (c :: t).drop (f :: fs).length = c :: t :=
            listPrefixOf_append_drop (f :: fs) (c :: t) hpre
          have hrec : replaceScanF (f :: fs) (f :: fs) n (t.drop fs.length) = t.drop fs.length := by
            rw [← hp]
            refine ih (t.drop fs.length) (le_trans ?_ ht)
            simp [List.length_drop]
          simp only [replaceScanF, hpre, if_true]
          rw [hrec]
          simpa using hdrop
        · have hrec : replaceScanF (f :: fs) (f :: fs) n t = t := by
            rw [← hp]; exact ih t ht
          simp only [replaceScanF]
          rw [if_neg hpre, hrec]

/-- Replacing every occurrence of a needle by the needle itself changes
nothing (scan version). -/
theorem replaceScan_self (p s : List Char) : replaceScan p p s = s :=
  replaceScanF_self p s.length s (le_refl _)

/-- Replacing every occurrence of a needle by the needle itself changes
nothing. -/
theorem replaceAll_self (p s : List Char) : replaceAll p p s = s := by
  cases p with
  | nil => simpa [replaceAll] using interleaveRepl_nil s
  | cons f fs => simpa [replaceAll] using replaceScan_self (f :: fs) s

/-- The executor's report accounts for every item of the batch: the three
counters sum to the batch length and every failed or skipped item contributes
one error line. -/
theorem runBatch_counts {σ α : Type} (step : σ → α → σ × ItemOutcome)
    (nameOf : α → List Char) :
    ∀ (l : List α) (st : σ),
      (runBatch step nameOf st l).2.succeeded + (runBatch step nameOf st l).2.failed
          + (runBatch step nameOf st l).2.skipped = l.length
      ∧ (runBatch step nameOf st l).2.errors.length
          = (runBatch step nameOf st l).2.failed + (runBatch step nameOf st l).2.skipped := by
  intro l
  induction l with
  | nil => intro st; simp [runBatch]
  | cons a as ih =>
    intro st
    obtain ⟨h1, h2⟩ := ih (step st a).1
    cases hout : (step st a).2 with
    | ok => simp [runBatch, hout]; omega
    | failed e => simp [runBatch, hout]; omega
    | skipped e => simp [runBatch, hout]; omega

/-- Non-recursive listing only produces separator-free names directly under
the root path. -/
theorem listTrees_nonrec_shape (root : List Char) :
    ∀ (cs : List FsTree), cs.all topFileNameOk = true →
      ∀ e ∈ listTrees root false cs,
        ∃ nm, e.name = nm ∧ e.full_path = root ++ '/' :: nm
          ∧ nm.all (fun c => !(c == '/')) = true := by
  intro cs
  induction cs with
  | nil => intro _ e he; simp [listTrees] at he
  | cons t ts ih =>
    intro h e he
    rw [List.all_cons, Bool.and_eq_true] at h
    obtain ⟨ht, hts⟩ := h
    rw [listTrees] at he
    rcases List.mem_append.mp he with he | he
    · cases t with
      | file nm sz mt =>
        simp [listTree] at he
        subst he
        exact ⟨nm, rfl, rfl, by simpa [topFileNameOk] using ht⟩
      | dir nm cs₂ =>
        simp [listTree] at he
    · exact ih hts e he

/-! ## Theorems for the core claims (spec-modelled) -/

/-- C2: with `use_regex` false the Filter Engine returns exactly the entries
whose (case-appropriately folded) name contains the pattern as a substring,
and with the empty pattern it returns the full entry list. -/
theorem filterEngine_nonregex_substring (spec : FilterSpec) (entries : List FileEntry)
    (h : spec.use_regex = false) :
    filterEngine spec entries = Except.ok (entries.filter (fun e =>
      listContainsSub (caseFold spec.case_sensitive spec.pattern)
        (caseFold spec.case_sensitive e.name)))
    ∧ (spec.pattern = [] → filterEngine spec entries = Except.ok entries) := by
  constructor
  · simp [filterEngine, h]
  · intro hp
    simp [filterEngine, h, hp, caseFold_nil, listContainsSub_nil]

/-- Witness for C2 at a concrete filter and entry list. -/
theorem filterEngine_nonregex_substring_witness :
    wFilterSpec.use_regex = false
    ∧ (filterEngine wFilterSpec [wEntryA, wEntryB] = Except.ok ([wEntryA, wEntryB].filter (fun e =>
        listContainsSub (caseFold wFilterSpec.case_sensitive wFilterSpec.pattern)
          (caseFold wFilterSpec.case_sensitive e.name)))
      ∧ (wFilterSpec.pattern = [] →
          filterEngine wFilterSpec [wEntryA, wEntryB] = Except.ok [wEntryA, wEntryB])) :=
  ⟨rfl, filterEngine_nonregex_substring wFilterSpec [wEntryA, wEntryB] rfl⟩

/-- C3: a regex filter whose pattern fails to compile makes the Filter Engine
fail with `InvalidPatternError`, and the caller keeps the previously displayed
state unchanged while surfacing the error. -/
theorem filterEngine_invalid_regex_preserves_state (spec : FilterSpec)
    (st : DisplayState) (entries : List FileEntry)
    (hr : spec.use_regex = true)
    (hc : compileRegex (caseFold spec.case_sensitive spec.pattern) = none) :
    filterEngine spec entries = Except.error FMError.invalidPattern
    ∧ (applyFilter st spec).1 = st
    ∧ (applyFilter st spec).2 = some FMError.invalidPattern := by
  have h₂ : filterEngine spec st.allEntries = Except.error FMError.invalidPattern := by
    simp [filterEngine, hr, hc]
  refine ⟨by simp [filterEngine, hr, hc], ?_, ?_⟩ <;> simp [applyFilter, h₂]

/-- Witness for C3 at the unbalanced pattern `(`. -/
theorem filterEngine_invalid_regex_preserves_state_witness :
    wBadRegexSpec.use_regex = true
    ∧ compileRegex (caseFold wBadRegexSpec.case_sensitive wBadRegexSpec.pattern) = none
    ∧ (filterEngine wBadRegexSpec [wEntryA] = Except.error FMError.invalidPattern
        ∧ (applyFilter wDisplay wBadRegexSpec).1 = wDisplay
        ∧ (applyFilter wDisplay wBadRegexSpec).2 = some FMError.invalidPattern) :=
  ⟨rfl, by decide,
   filterEngine_invalid_regex_preserves_state wBadRegexSpec wDisplay [wEntryA] rfl (by decide)⟩

/-- C4: on entries `a.txt`, `b.txt` with the regex rename `a|b` → `x`, both
entries map to `x.txt` and both are flagged as conflicts; the executor then
performs zero renames (the filesystem state is unchanged) and reports
0 succeeded, 2 skipped, each with `CollisionError`. -/
theorem rename_collision_pipeline :
    renamePreviews c4Spec c4Entries c4Existing = Except.ok c4Previews
    ∧ c4Previews.map (fun p => p.new_name) = ["x.txt".toList, "x.txt".toList]
    ∧ c4Previews.map (fun p => p.conflict) = [true, true]
    ∧ runRename c4State c4Previews =
        (c4State, ⟨0, 0, 2, [("a.txt".toList, FMError.collision),
                             ("b.txt".toList, FMError.collision)]⟩) :=
  ⟨rfl, rfl, rfl, rfl⟩

/-- C5: for each operation kind the Bulk Operation Executor processes every
entry of the batch — the summary's succeeded, failed and skipped counts always
sum to the batch length, whatever the per-item outcomes — and reports one
error line per failed or skipped item. -/
theorem executor_processes_whole_batch (st : FsState) (ov : Bool)
    (es : List FileEntry) (ps : List RenamePreview) :
    ((runDelete st es).2.succeeded + (runDelete st es).2.failed
        + (runDelete st es).2.skipped = es.length)
    ∧ ((runCopy ov st es).2.succeeded + (runCopy ov st es).2.failed
        + (runCopy ov st es).2.skipped = es.length)
    ∧ ((runRename st ps).2.succeeded + (runRename st ps).2.failed
        + (runRename st ps).2.skipped = ps.length)
    ∧ ((runDelete st es).2.errors.length
        = (runDelete st es).2.failed + (runDelete st es).2.skipped) :=
  ⟨(runBatch_counts deleteStep (fun e => e.name) es st).1,
   (runBatch_counts (copyStep ov) (fun e => e.name) es st).1,
   (runBatch_counts renameStep (fun p => p.old_name) ps st).1,
   (runBatch_counts deleteStep (fun e => e.name) es st).2⟩

/-- C6: copying an entry that exists in the source onto a destination already
holding a same-named file, with overwrite disabled, fails with
`DestinationExistsError` and leaves the whole state untouched; and, fully
generally — for every state, entry and overwrite setting — a copy step that
does not succeed leaves the filesystem exactly as it was, the source directory
is never modified, and every file in the resulting destination is either a
pre-existing file or a complete copy of a same-named source file's content —
never a truncated partial file. -/
theorem copy_destination_exists_intact (st : FsState) (e : FileEntry) (f : FsFile)
    (hs : st.src.find? (fun g => g.name == e.name) = some f)
    (hd : st.dest.any (fun g => g.name == e.name) = true) :
    copyStep false st e = (st, ItemOutcome.failed FMError.destinationExists)
    ∧ ∀ (ov : Bool) (st₀ : FsState) (e₀ : FileEntry),
        ((copyStep ov st₀ e₀).2 ≠ ItemOutcome.ok → (copyStep ov st₀ e₀).1 = st₀)
        ∧ (copyStep ov st₀ e₀).1.src = st₀.src
        ∧ ∀ g ∈ (copyStep ov st₀ e₀).1.dest, g ∈ st₀.dest
            ∨ ∃ f₀, f₀ ∈ st₀.src ∧ f₀.name = e₀.name ∧ g = ⟨e₀.name, f₀.content⟩ := by
  constructor
  · simp [copyStep, hs, hd]
  · intro ov st₀ e₀
    cases hfind : st₀.src.find? (fun g => g.name == e₀.name) with
    | none =>
      refine ⟨fun _ => by simp [copyStep, hfind], by simp [copyStep, hfind], ?_⟩
      intro g hg
      simp [copyStep, hfind] at hg
      exact Or.inl hg
    | some f₀ =>
      have hmem : f₀ ∈ st₀.src := List.mem_of_find?_eq_some hfind
      have hname : f₀.name = e₀.name := by
        have hp := List.find?_some hfind
        simpa [beq_iff_eq] using hp
      by_cases h₁ : (st₀.dest.any (fun g => g.name == e₀.name) && !ov) = true
      · refine ⟨fun _ => by simp [copyStep, hfind, h₁], by simp [copyStep, hfind, h₁], ?_⟩
        intro g hg
        simp [copyStep, hfind, h₁] at hg
        exact Or.inl hg
      · by_cases h₂ : st₀.free < f₀.content.length
        · refine ⟨fun _ => by simp [copyStep, hfind, h₁, h₂],
                  by simp [copyStep, hfind, h₁, h₂], ?_⟩
          intro g hg
          simp [copyStep, hfind, h₁, h₂] at hg
          exact Or.inl hg
        · refine ⟨?_, by simp [copyStep, hfind, h₁, h₂], ?_⟩
          · intro hnot
            exact absurd (by simp [copyStep, hfind, h₁, h₂]) hnot
          · intro g hg
            simp [copyStep, hfind, h₁, h₂, List.mem_filter] at hg
            rcases hg with ⟨hgd, _⟩ | hg
            · exact Or.inl hgd
            · exact Or.inr ⟨f₀, hmem, hname, by simp [hg]⟩

/-- Witness for C6 at a concrete state whose destination holds `a.txt`. -/
theorem copy_destination_exists_intact_witness :
    c6State.src.find? (fun g => g.name == wEntryA.name) = some ⟨"a.txt".toList, "hello".toList⟩
    ∧ c6State.dest.any (fun g => g.name == wEntryA.name) = true
    ∧ copyStep false c6State wEntryA = (c6State, ItemOutcome.failed FMError.destinationExists) :=
  ⟨by decide, by decide,
   (copy_destination_exists_intact c6State wEntryA ⟨"a.txt".toList, "hello".toList⟩
      (by decide) (by decide)).1⟩

/-- C7, counterexample: with `use_regex` true and find = replace = `a|b`, the
name `a.txt` is mapped to `a|b.txt`, not to itself — the replacement text is
literal while the find text is a pattern, so find = replace does not make the
regex-mode transform the identity. -/
theorem rename_find_eq_replace_regex_counterexample :
    applyRename ⟨"a|b".toList, "a|b".toList, true⟩ ("a.txt".toList)
      = Except.ok ("a|b.txt".toList)
    ∧ ("a|b.txt".toList) ≠ ("a.txt".toList) :=
  ⟨rfl, by decide⟩

/-- C7, amended: with `use_regex` false, a RenameSpec whose find equals its
replace maps every name to itself. -/
theorem rename_identity_literal (spec : RenameSpec) (nm : List Char)
    (hm : spec.use_regex = false) (hfr : spec.find = spec.replace) :
    applyRename spec nm = Except.ok nm := by
  simp only [applyRename, hm, Bool.false_eq_true, if_false, Except.ok.injEq]
  rw [hfr]
  exact replaceAll_self spec.replace nm

/-- Witness for the amended C7 at find = replace = `na` on `banana`. -/
theorem rename_identity_literal_witness :
    c7Spec.use_regex = false ∧ c7Spec.find = c7Spec.replace
    ∧ applyRename c7Spec ("banana".toList) = Except.ok ("banana".toList) :=
  ⟨rfl, rfl, rename_identity_literal c7Spec ("banana".toList) rfl rfl⟩

/-- C8: the non-recursive directory listing only returns entries sitting
directly under the root: every returned entry's full path is the root path,
one separator, and a separator-free name. -/
theorem lister_nonrecursive_no_subdir (root : List Char) (cs : List FsTree)
    (h : cs.all topFileNameOk = true) (e : FileEntry)
    (he : e ∈ listDirectory root false cs) :
    ∃ nm, e.name = nm ∧ e.full_path = root ++ '/' :: nm
      ∧ nm.all (fun c => !(c == '/')) = true :=
  listTrees_nonrec_shape root cs h e he

/-- Witness for C8 on a root with one file and one subdirectory. -/
theorem lister_nonrecursive_no_subdir_witness :
    c8Trees.all topFileNameOk = true
    ∧ c8Entry ∈ listDirectory ("/r".toList) false c8Trees
    ∧ ∃ nm, c8Entry.name = nm ∧ c8Entry.full_path = ("/r".toList) ++ '/' :: nm
        ∧ nm.all (fun c => !(c == '/')) = true :=
  ⟨by decide, by decide,
   lister_nonrecursive_no_subdir ("/r".toList) c8Trees (by decide) c8Entry (by decide)⟩

end FileManager
